import Mathlib

set_option autoImplicit false

/-
Verification of the Code Structural Analysis & Conflict Detection Engine
(src/core/code_analyzer.py and src/utils/language_detector.py).

Shallow embedding conventions:
* Machine integers are Nat (all quantities in the source are non-negative
  counts, line numbers or timestamps).
* `time.time()` is modelled as a Nat-valued instant passed to each call.
* External libraries are not re-implemented; their *results* are inputs:
  - `ast.parse` (CPython parser): an `Except String PyBlock` value, the
    module body on success or the SyntaxError message on failure.  Only the
    statement-level nodes that `_analyze_python` and
    `_calculate_function_complexity` inspect are modelled; Python expression
    nodes can contain neither statements nor any of the node kinds those
    functions look for, so they are irrelevant to every observable field.
    `lineno` / `end_lineno` / docstrings are attributes of the parsed nodes
    and travel with the constructors.
  - `re.finditer` (regex engine): a list of matches (offset plus capture
    groups) supplied to the pattern-based extractors.
  - `hashlib.md5`: an opaque deterministic digest, modelled as the identity
    on the content string (no claim inspects digest values).
* Fallible steps return Except; all functions are total.
-/

namespace DeepCode

/-- Python dataclass `CodeElement` (code_analyzer.py lines 15-26).
`parameters`, `return_type`, `dependencies` and `docstring` default to
`None`; `complexity` defaults to the integer 0. -/
structure CodeElement where
  name : String
  type : String
  line_start : Nat
  line_end : Nat
  docstring : Option String := none
  parameters : Option (List String) := none
  return_type : Option String := none
  complexity : Nat := 0
  dependencies : Option (List String) := none
  deriving Repr, DecidableEq

/-- An issue dictionary as produced by `_detect_issues` and the degraded
path of `analyze_file`.  The degraded path writes no `severity` key, hence
`severity` is optional. -/
structure Issue where
  type : String
  severity : Option String := none
  line : Option Nat := none
  message : String
  deriving Repr, DecidableEq

/-- Python dataclass `FileAnalysis` (code_analyzer.py lines 28-41).
The wall-clock field `analysis_time` is not modelled. -/
structure FileAnalysis where
  file_path : String
  language : String
  elements : List CodeElement
  imports : List String
  dependencies : List String
  complexity_score : Nat
  lines_of_code : Nat
  hash : String
  issues : List Issue
  suggestions : List String
  deriving Repr, DecidableEq

/-- The dictionary `{'elements': ..., 'imports': ..., 'dependencies': ...}`
returned by every per-language `_analyze_*` method. -/
structure ExtractResult where
  elements : List CodeElement
  imports : List String
  dependencies : List String
  deriving Repr, DecidableEq

/-- A conflict dictionary as produced by `detect_conflicts`.  The
`analysis_error` conflict carries no `element` key, hence `element` is
optional. -/
structure Conflict where
  type : String
  severity : String
  message : String
  element : Option String := none
  deriving Repr, DecidableEq

/- Statement-level Python AST nodes, as produced by `ast.parse`.
`PyBlock` is a statement list (a `body`, `orelse`, `handlers` or
`finalbody` field).  `simpleStmt` stands for any statement with no
statement children and none of the types `_analyze_python` or
`_calculate_function_complexity` match on (pass, return, assignments,
expression statements, ...). -/
mutual
inductive PyStmt where
  | functionDef (name : String) (params : List String) (docstring : Option String)
      (lineno : Nat) (endLineno : Option Nat) (body : PyBlock)
  | classDef (name : String) (docstring : Option String)
      (lineno : Nat) (endLineno : Option Nat) (body : PyBlock)
  | ifStmt (body orelse : PyBlock)
  | forStmt (body orelse : PyBlock)
  | whileStmt (body orelse : PyBlock)
  | tryStmt (body handlers orelse finalbody : PyBlock)
  | exceptHandler (body : PyBlock)
  | importStmt (names : List String)
  | importFrom (module : Option String)
  | simpleStmt
  deriving Repr, DecidableEq
inductive PyBlock where
  | nil
  | cons (s : PyStmt) (rest : PyBlock)
  deriving Repr, DecidableEq
end

/-- Concatenation of statement blocks. -/
def PyBlock.append : PyBlock → PyBlock → PyBlock
  | .nil, b => b
  | .cons s r, b => .cons s (r.append b)

/-- The statement children of a node in `ast.iter_child_nodes` field order
(expression children carry no statements and are omitted, see the header
comment). -/
def children : PyStmt → PyBlock
  | .functionDef _ _ _ _ _ body => body
  | .classDef _ _ _ _ body => body
  | .ifStmt body orelse => body.append orelse
  | .forStmt body orelse => body.append orelse
  | .whileStmt body orelse => body.append orelse
  | .tryStmt body handlers orelse finalbody =>
      ((body.append handlers).append orelse).append finalbody
  | .exceptHandler body => body
  | .importStmt _ => .nil
  | .importFrom _ => .nil
  | .simpleStmt => .nil

/- Sum of a per-node weight over a whole subtree (the node itself plus
every node below it). -/
mutual
def sumTree (w : PyStmt → Nat) : PyStmt → Nat
  | .functionDef n p d l e body => w (.functionDef n p d l e body) + sumBlock w body
  | .classDef n d l e body => w (.classDef n d l e body) + sumBlock w body
  | .ifStmt body orelse => w (.ifStmt body orelse) + sumBlock w body + sumBlock w orelse
  | .forStmt body orelse => w (.forStmt body orelse) + sumBlock w body + sumBlock w orelse
  | .whileStmt body orelse => w (.whileStmt body orelse) + sumBlock w body + sumBlock w orelse
  | .tryStmt body handlers orelse finalbody =>
      w (.tryStmt body handlers orelse finalbody) + sumBlock w body + sumBlock w handlers
        + sumBlock w orelse + sumBlock w finalbody
  | .exceptHandler body => w (.exceptHandler body) + sumBlock w body
  | .importStmt ns => w (.importStmt ns)
  | .importFrom m => w (.importFrom m)
  | .simpleStmt => w .simpleStmt
def sumBlock (w : PyStmt → Nat) : PyBlock → Nat
  | .nil => 0
  | .cons s r => sumTree w s + sumBlock w r
end

/-- Total number of (statement) nodes in a block, used as fuel for the
breadth-first walk: `ast.walk` dequeues each node exactly once. -/
def nodeCountB (b : PyBlock) : Nat := sumBlock (fun _ => 1) b

/-- `ast.walk`: breadth-first traversal with a FIFO queue.  One unit of
fuel is spent per dequeued node, so `nodeCountB` fuel is always enough. -/
def walkAux : Nat → PyBlock → List PyStmt
  | _, .nil => []
  | 0, .cons _ _ => []
  | fuel + 1, .cons s rest => s :: walkAux fuel (rest.append (children s))

/-- `list(ast.walk(...))` started on a queue holding the given block. -/
def walkFrom (b : PyBlock) : List PyStmt := walkAux (nodeCountB b) b

/-- `isinstance(child, (ast.If, ast.For, ast.While, ast.Try, ast.ExceptHandler))`
(code_analyzer.py line 351). -/
def isBranch : PyStmt → Bool
  | .ifStmt _ _ => true
  | .forStmt _ _ => true
  | .whileStmt _ _ => true
  | .tryStmt _ _ _ _ => true
  | .exceptHandler _ => true
  | _ => false

/-- `CodeAnalyzer._calculate_function_complexity` (lines 346-354): start at
1, walk the subtree rooted at the node, add 1 for every branching node. -/
def calculateFunctionComplexity (node : PyStmt) : Nat :=
  1 + (walkFrom (.cons node .nil)).countP isBranch

/-- `node.end_lineno or node.lineno`: Python `or` falls through on the
falsy values `None` and 0. -/
def pyOrNat (endLineno : Option Nat) (lineno : Nat) : Nat :=
  match endLineno with
  | some e => if e = 0 then lineno else e
  | none => lineno

/-- The `CodeElement` appended for a walked node, if any: `FunctionDef`
and `ClassDef` produce one (code_analyzer.py lines 165-190), other node
types none.  A class element keeps the dataclass defaults for
`parameters` and `complexity`. -/
def elementOf : PyStmt → Option CodeElement
  | node@(.functionDef name params docstring lineno endLineno _) =>
      some { name := name, type := "function", line_start := lineno,
             line_end := pyOrNat endLineno lineno, docstring := docstring,
             parameters := some params, return_type := none,
             complexity := calculateFunctionComplexity node, dependencies := none }
  | .classDef name docstring lineno endLineno _ =>
      some { name := name, type := "class", line_start := lineno,
             line_end := pyOrNat endLineno lineno, docstring := docstring,
             parameters := none, return_type := none,
             complexity := 0, dependencies := none }
  | _ => none

/-- Module names appended to `imports` (and `dependencies`) for a walked
node (code_analyzer.py lines 192-202). -/
def importsOf : PyStmt → List String
  | .importStmt names => names
  | .importFrom (some m) => [m]
  | _ => []

/-- One iteration of the `for node in ast.walk(tree)` loop of
`_analyze_python`: the three result lists grow by the node's
contributions. -/
def extractStep (acc : ExtractResult) (node : PyStmt) : ExtractResult :=
  { elements := acc.elements ++ (elementOf node).toList,
    imports := acc.imports ++ importsOf node,
    dependencies := acc.dependencies ++ importsOf node }

/-- `CodeAnalyzer._analyze_python` (lines 155-212).  The walk of the
`Module` node itself contributes nothing (it is neither a definition nor
an import), so walking the module body is observably identical.  A
`SyntaxError` from `ast.parse` is swallowed (`except SyntaxError: pass`,
lines 204-206) and the empty result lists are returned. -/
def analyzePython (parsed : Except String PyBlock) : ExtractResult :=
  match parsed with
  | .error _ => { elements := [], imports := [], dependencies := [] }
  | .ok body => (walkFrom body).foldl extractStep { elements := [], imports := [], dependencies := [] }

/-- The whitespace characters stripped by `str.strip()` and matched by
regex `\s` (ASCII range; the analyzed contents are ASCII). -/
def isPySpace (c : Char) : Bool :=
  c == ' ' || c == '\t' || c == '\n' || c == '\r' || c == Char.ofNat 11 || c == Char.ofNat 12

/-- `str.strip()`. -/
def pyStrip (cs : List Char) : List Char :=
  ((cs.dropWhile isPySpace).reverse.dropWhile isPySpace).reverse

/-- `str.splitlines()` for LF line endings: a trailing newline does not
open an extra empty line, and the empty string has no lines. -/
def pySplitlines (cs : List Char) : List (List Char) :=
  match cs with
  | [] => []
  | _ => if cs.getLast? = some '\n' then cs.dropLast.splitOn '\n' else cs.splitOn '\n'

/-- A word character for regex `\b` boundaries. -/
def isWordChar (c : Char) : Bool := c.isAlphanum || c == '_'

/-- Whether `kw` occurs at the head of `cs` with a word boundary after it
(`kw` itself consists of word characters). -/
def keywordAt (kw cs : List Char) : Bool :=
  kw.isPrefixOf cs &&
    (match cs.drop kw.length with
     | [] => true
     | d :: _ => !isWordChar d)

/-- Occurrences of `\b kw \b` while scanning `cs`; `prev` is the character
just before the scan point (none at the start of the content). -/
def countWordAux (kw : List Char) : Option Char → List Char → Nat
  | _, [] => 0
  | prev, c :: rest =>
      (if (match prev with | none => true | some p => !isWordChar p) && keywordAt kw (c :: rest)
       then 1 else 0)
      + countWordAux kw (some c) rest

/-- `len(re.findall(rf'\b{kw}\b', content))` for a keyword of word
characters: word-bounded matches cannot overlap, so the non-overlapping
`findall` count equals the per-position count. -/
def countWord (kw cs : List Char) : Nat := countWordAux kw none cs

/-- `decision_keywords` of `_calculate_complexity` (line 339). -/
def decisionKeywords : List (List Char) :=
  [['i','f'], ['e','l','i','f'], ['e','l','s','e'], ['f','o','r'],
   ['w','h','i','l','e'], ['t','r','y'], ['e','x','c','e','p','t'],
   ['c','a','s','e'], ['s','w','i','t','c','h']]

/-- `CodeAnalyzer._calculate_complexity` (lines 334-344): 1 plus one per
word-bounded decision-keyword occurrence anywhere in the content (the
`extension` argument is ignored by the source). -/
def calculateComplexity (cs : List Char) : Nat :=
  (decisionKeywords.map (fun kw => countWord kw cs)).foldl (· + ·) 1

/-- `lines_of_code` (line 112): non-blank lines whose stripped text does
not begin with `#`. -/
def linesOfCode (cs : List Char) : Nat :=
  ((pySplitlines cs).filter (fun line =>
    let s := pyStrip line
    !s.isEmpty && !(s.head? == some '#'))).length

/-- Contiguous-sublist test (Python `in` on strings). -/
def containsSub (sub : List Char) : List Char → Bool
  | [] => sub.isEmpty
  | c :: rest => sub.isPrefixOf (c :: rest) || containsSub sub rest

/-- The single-quote character (ASCII 39). -/
def squote : Char := Char.ofNat 39

/-- The issues the language-independent loop of `_detect_issues`
contributes for one 1-based-numbered line (lines 383-400): long line,
then TODO/FIXME. -/
def generalLineIssues (i : Nat) (line : List Char) : List Issue :=
  (if 120 < line.length then
     [{ type := "style", severity := some "warning", line := some i,
        message := "Line too long (" ++ toString line.length ++ " characters)" }]
   else [])
  ++ (if containsSub ['T','O','D','O'] (line.map Char.toUpper)
         || containsSub ['F','I','X','M','E'] (line.map Char.toUpper) then
        [{ type := "maintenance", severity := some "info", line := some i,
           message := "TODO/FIXME comment found" }]
      else [])

/-- `re.match(r'^\s*(def|class)\s+', line)`: optional leading whitespace,
one of the two keywords, then at least one whitespace character. -/
def matchesDefClass (line : List Char) : Bool :=
  let rest := line.dropWhile isPySpace
  (['d','e','f'].isPrefixOf rest &&
     (match rest.drop 3 with | c :: _ => isPySpace c | [] => false))
  || (['c','l','a','s','s'].isPrefixOf rest &&
     (match rest.drop 5 with | c :: _ => isPySpace c | [] => false))

/-- `CodeAnalyzer._detect_python_issues` (lines 410-429): a `def`/`class`
line not followed within the next three lines by a triple-quote token
yields a `documentation`/`warning` issue. -/
def detectPythonIssues (lines : List (List Char)) : List Issue :=
  (lines.enumFrom 1).foldr (fun p acc =>
    (if matchesDefClass p.2 &&
        !(((lines.drop p.1).take 3).any (fun nl =>
            containsSub ['"','"','"'] nl || containsSub [squote, squote, squote] nl)) then
       [{ type := "documentation", severity := some "warning", line := some p.1,
          message := "Missing docstring" }]
     else []) ++ acc) []

/-- `CodeAnalyzer._detect_js_issues` (lines 431-447): a non-empty stripped
line whose last character is none of `;` `{` `}` and which mentions a
declaration/return keyword yields a `style`/`info` issue. -/
def detectJsIssues (lines : List (List Char)) : List Issue :=
  (lines.enumFrom 1).foldr (fun p acc =>
    (if (match (pyStrip p.2).getLast? with
         | some c => !(c == ';' || c == '{' || c == '}')
         | none => false)
        && !(pyStrip p.2).isEmpty
        && !((pyStrip p.2).getLast? == some '{')
        && ([['v','a','r',' '], ['l','e','t',' '], ['c','o','n','s','t',' '],
             ['r','e','t','u','r','n',' ']].any (fun kw => containsSub kw p.2)) then
       [{ type := "style", severity := some "info", line := some p.1,
          message := "Consider adding semicolon" }]
     else []) ++ acc) []

/-- The issues the language-independent loop contributes for all lines. -/
def detectGeneralIssues (lines : List (List Char)) : List Issue :=
  (lines.enumFrom 1).foldr (fun p acc => generalLineIssues p.1 p.2 ++ acc) []

/-- `CodeAnalyzer._detect_issues` (lines 376-408): general issues, then
the language-specific pass. -/
def detectIssues (content : String) (language : String) : List Issue :=
  let lines := pySplitlines content.toList
  detectGeneralIssues lines
  ++ (if language == "python" then detectPythonIssues lines
      else if language == "javascript" || language == "typescript" then detectJsIssues lines
      else [])

/-- `CodeAnalyzer._generate_suggestions` (lines 449-474). -/
def generateSuggestions (elements : List CodeElement) (issues : List Issue) : List String :=
  let functionsWithoutDocs := elements.filter (fun e => e.type == "function" && e.docstring.isNone)
  let complexFunctions := elements.filter (fun e => 10 < e.complexity)
  let errorCount := (issues.filter (fun i => i.severity == some "error")).length
  let warningCount := (issues.filter (fun i => i.severity == some "warning")).length
  (if !functionsWithoutDocs.isEmpty then
     ["Add docstrings to " ++ toString functionsWithoutDocs.length
        ++ " functions for better documentation"]
   else [])
  ++ (if !complexFunctions.isEmpty then
        ["Consider refactoring " ++ toString complexFunctions.length
           ++ " complex functions (complexity > 10)"]
      else [])
  ++ (if 0 < errorCount then ["Fix " ++ toString errorCount ++ " critical issues"] else [])
  ++ (if 0 < warningCount then
        ["Address " ++ toString warningCount ++ " warnings for better code quality"]
      else [])

/-- The `language_map` of `CodeAnalyzer._detect_language` (lines 358-373),
in source order. -/
def languageMap : List (String × String) :=
  [(".py", "python"), (".js", "javascript"), (".ts", "typescript"), (".java", "java"),
   (".cpp", "cpp"), (".c", "c"), (".go", "go"), (".rs", "rust"), (".php", "php"),
   (".rb", "ruby"), (".cs", "csharp"), (".swift", "swift"), (".kt", "kotlin"),
   (".scala", "scala")]

/-- `str.lower()` (the looked-up extensions are ASCII). -/
def asciiLower (s : String) : String := String.mk (s.data.map Char.toLower)

/-- Dictionary lookup (first matching key; Python dict keys are unique). -/
def dictLookup {α : Type} (d : List (String × α)) (k : String) : Option α :=
  match d with
  | [] => none
  | p :: rest => if p.1 = k then some p.2 else dictLookup rest k

/-- `CodeAnalyzer._detect_language` (lines 356-374):
`language_map.get(extension.lower(), 'unknown')`. -/
def detectLanguage (extension : String) : String :=
  (dictLookup languageMap (asciiLower extension)).getD "unknown"

/-- The `file_extensions` table of `LanguageDetector.__init__`
(language_detector.py lines 12-104), in source order. -/
def file_extensions : List (String × String) :=
  [(".c", "c"), (".h", "c"), (".cpp", "cpp"), (".cc", "cpp"), (".cxx", "cpp"),
   (".hpp", "cpp"), (".hxx", "cpp"), (".java", "java"), (".cs", "csharp"),
   (".go", "go"), (".rs", "rust"), (".swift", "swift"), (".kt", "kotlin"),
   (".scala", "scala"), (".dart", "dart"),
   (".py", "python"), (".pyw", "python"), (".js", "javascript"), (".mjs", "javascript"),
   (".ts", "typescript"), (".jsx", "jsx"), (".tsx", "tsx"), (".php", "php"),
   (".rb", "ruby"), (".pl", "perl"), (".pm", "perl"), (".lua", "lua"),
   (".r", "r"), (".R", "r"), (".jl", "julia"), (".sh", "bash"), (".bash", "bash"),
   (".zsh", "zsh"), (".fish", "fish"), (".ps1", "powershell"), (".psm1", "powershell"),
   (".html", "html"), (".htm", "html"), (".css", "css"), (".scss", "scss"),
   (".sass", "sass"), (".less", "less"), (".vue", "vue"), (".svelte", "svelte"),
   (".json", "json"), (".xml", "xml"), (".yaml", "yaml"), (".yml", "yaml"),
   (".toml", "toml"), (".ini", "ini"), (".cfg", "ini"), (".conf", "ini"),
   (".csv", "csv"), (".tsv", "tsv"),
   (".md", "markdown"), (".rst", "restructuredtext"), (".tex", "latex"), (".txt", "text"),
   (".dockerfile", "dockerfile"), (".dockerignore", "dockerignore"),
   (".gitignore", "gitignore"), (".gitattributes", "gitattributes"),
   (".editorconfig", "editorconfig"), (".eslintrc", "json"), (".prettierrc", "json"),
   (".babelrc", "json"),
   (".sql", "sql"), (".db", "database"), (".sqlite", "database"), (".sqlite3", "database"),
   (".asm", "assembly"), (".s", "assembly"), (".S", "assembly"),
   (".makefile", "makefile"), (".cmake", "cmake"), (".gradle", "gradle"),
   (".maven", "maven"), (".pom", "maven")]

/-- `pathlib.PurePath(...).suffix` for a plain path string: the part of
the final component from its last dot, empty when the final component has
no dot, starts with its only dot, or ends with it. -/
def pathSuffix (file_path : String) : String :=
  let name := (file_path.toList.reverse.takeWhile (fun c => !(c == '/'))).reverse
  match name.reverse.findIdx? (fun c => c == '.') with
  | none => ""
  | some j =>
      let i := name.length - 1 - j
      if 0 < i ∧ i < name.length - 1 then String.mk (name.drop i) else ""

/-- `LanguageDetector.detect_from_extension` (lines 196-200): look the
lowercased suffix up in `file_extensions`; `None` on a miss. -/
def detect_from_extension (file_path : String) : Option String :=
  dictLookup file_extensions (asciiLower (pathSuffix file_path))

/-- The analysis cache `self.cache`: `file_str ↦ (analysis, cache_time)`. -/
abbrev Cache := List (String × (FileAnalysis × Nat))

/-- `self.cache[file_str]` read. -/
def cacheLookup (cache : Cache) (k : String) : Option (FileAnalysis × Nat) :=
  dictLookup cache k

/-- `self.cache[file_str] = value`: overwrite in place or append. -/
def cacheInsert (cache : Cache) (k : String) (v : FileAnalysis × Nat) : Cache :=
  if (dictLookup cache k).isSome then
    cache.map (fun p => if p.1 = k then (k, v) else p)
  else cache ++ [(k, v)]

/-- `self.cache_ttl = 300` (line 49). -/
def cacheTtl : Nat := 300

/-- The MD5 hex digest of `hashlib` is external; it is modelled as an
injective deterministic digest (the identity).  No claim inspects digest
values. -/
def md5Hex (content : String) : String := content

/-- The successful body of `analyze_file` (lines 99-137) after the content
has been read and the per-language extractor has run: assemble the
`FileAnalysis` from the extraction result and the content metrics. -/
def assembleAnalysis (file_str suffix content : String) (extract : ExtractResult) : FileAnalysis :=
  let language := detectLanguage suffix
  let issues := detectIssues content language
  { file_path := file_str, language := language,
    elements := extract.elements, imports := extract.imports,
    dependencies := extract.dependencies,
    complexity_score := calculateComplexity content.toList,
    lines_of_code := linesOfCode content.toList,
    hash := md5Hex content,
    issues := issues,
    suggestions := generateSuggestions extract.elements issues }

/-- `CodeAnalyzer.analyze_file` (lines 87-137): serve a cached analysis
when `force_refresh` is false, an entry exists and it is younger than the
TTL; otherwise recompute and overwrite the entry.  `now` models
`time.time()`; `extract` is the per-language extractor result for
`content` (the extractor dispatch and file read are outside the cache
logic). -/
def analyzeFile (cache : Cache) (now : Nat) (file_str suffix content : String)
    (extract : ExtractResult) (force_refresh : Bool) : FileAnalysis × Cache :=
  let hit : Option FileAnalysis :=
    match (if force_refresh then none else cacheLookup cache file_str) with
    | some (cached, cacheTime) => if now - cacheTime < cacheTtl then some cached else none
    | none => none
  match hit with
  | some cached => (cached, cache)
  | none =>
      let fa := assembleAnalysis file_str suffix content extract
      (fa, cacheInsert cache file_str (fa, now))

/-- The degraded result of `analyze_file`'s outer `except` (lines
139-153).  Note its single issue dictionary has a `type` key `'error'`
but no `severity` key at all. -/
def analyzeFileFailure (file_str msg : String) : FileAnalysis :=
  { file_path := file_str, language := "unknown", elements := [], imports := [],
    dependencies := [], complexity_score := 0, lines_of_code := 0, hash := "",
    issues := [{ type := "error", severity := none, line := none,
                 message := "Analysis failed: " ++ msg }],
    suggestions := [] }

/-- `_analyze_python` wrapped in the `analyze_file` assembly for a `.py`
file whose read succeeded: the full grammar-aware pipeline. -/
def analyzePyFile (file_str content : String) (parsed : Except String PyBlock) : FileAnalysis :=
  assembleAnalysis file_str ".py" content (analyzePython parsed)

/-- Python truthiness of an optional string (`None` and `''` are falsy). -/
def truthyStr : Option String → Bool
  | some s => !(s == "")
  | none => false

/-- `group(1) or group(2)`. -/
def pyOrOpt (a b : Option String) : Option String := if truthyStr a then a else b

/-- `content[:match.start()].count('\n') + 1` (lines 225, 237, 307, 320). -/
def lineNumAt (content : List Char) (k : Nat) : Nat := (content.take k).count '\n' + 1

/-- A match of the JavaScript function regex: offset and the two optional
capture groups. -/
structure JsFuncMatch where
  start : Nat
  group1 : Option String
  group2 : Option String
  deriving Repr, DecidableEq

/-- A match whose group 1 always captures a name (the class patterns). -/
structure NamedMatch where
  start : Nat
  name : String
  deriving Repr, DecidableEq

/-- A match of a generic per-extension function pattern: offset and all
capture groups. -/
structure GroupsMatch where
  start : Nat
  groups : List (Option String)
  deriving Repr, DecidableEq

/-- `CodeAnalyzer._analyze_javascript` (lines 214-262).  The `re.finditer`
results for the function / class / import patterns are inputs (the regex
engine is external); the loop bodies are translated exactly: functions and
classes record a single-line span at the newline count before the match
offset, and the import loops append the captured module names to both
`imports` and `dependencies`. -/
def analyzeJavascript (content : String) (funcMatches : List JsFuncMatch)
    (classMatches : List NamedMatch) (importModules : List String) : ExtractResult :=
  let funcElements := funcMatches.foldr (fun m acc =>
    (match pyOrOpt m.group1 m.group2 with
     | some n =>
         if truthyStr (some n) then
           [{ name := n, type := "function",
              line_start := lineNumAt content.toList m.start,
              line_end := lineNumAt content.toList m.start,
              docstring := none, parameters := none, return_type := none,
              complexity := 0, dependencies := none } ]
         else []
     | none => []) ++ acc) []
  let classElements := classMatches.map (fun m =>
    { name := m.name, type := "class",
      line_start := lineNumAt content.toList m.start,
      line_end := lineNumAt content.toList m.start,
      docstring := none, parameters := none, return_type := none,
      complexity := 0, dependencies := none })
  { elements := funcElements ++ classElements,
    imports := importModules, dependencies := importModules }

/-- `for group in match.groups(): if group: func_name = group; break`. -/
def firstTruthyGroup : List (Option String) → Option String
  | [] => none
  | g :: rest => if truthyStr g then g else firstTruthyGroup rest

/-- `CodeAnalyzer._analyze_generic` (lines 288-332).  As above the regex
matches are inputs; an extension with no pattern table simply has empty
match lists.  `_analyze_generic` extracts no imports. -/
def analyzeGeneric (content : String) (funcMatches : List GroupsMatch)
    (classMatches : List NamedMatch) : ExtractResult :=
  let funcElements := funcMatches.foldr (fun m acc =>
    (match firstTruthyGroup m.groups with
     | some n =>
         if truthyStr (some n) then
           [{ name := n, type := "function",
              line_start := lineNumAt content.toList m.start,
              line_end := lineNumAt content.toList m.start,
              docstring := none, parameters := none, return_type := none,
              complexity := 0, dependencies := none }]
         else []
     | none => []) ++ acc) []
  let classElements := classMatches.map (fun m =>
    { name := m.name, type := "class",
      line_start := lineNumAt content.toList m.start,
      line_end := lineNumAt content.toList m.start,
      docstring := none, parameters := none, return_type := none,
      complexity := 0, dependencies := none })
  { elements := funcElements ++ classElements, imports := [], dependencies := [] }

/-- The dict comprehension `{e.name: e for e in elements if e.type == 'function'}`
(lines 497-498): first-insertion key order, last value wins. -/
def dictUpsert (d : List (String × CodeElement)) (k : String) (v : CodeElement) :
    List (String × CodeElement) :=
  if (dictLookup d k).isSome then d.map (fun p => if p.1 = k then (k, v) else p)
  else d ++ [(k, v)]

/-- One step of the dict comprehension: non-function elements are skipped,
function elements are keyed by name. -/
def funcStep (d : List (String × CodeElement)) (e : CodeElement) : List (String × CodeElement) :=
  if e.type == "function" then dictUpsert d e.name e else d

/-- Build the name-to-element dictionary over the function elements. -/
def funcDict (elements : List CodeElement) : List (String × CodeElement) :=
  elements.foldl funcStep []

/-- Body of the removed-functions loop of `detect_conflicts` (lines
501-508) for one entry of the current-functions dictionary. -/
def removedConflictFor (newF : List (String × CodeElement)) (p : String × CodeElement) :
    List Conflict :=
  if (dictLookup newF p.1).isNone then
    [{ type := "removed_function", severity := "error",
       message := "Function \"" ++ p.1 ++ "\" was removed", element := some p.1 }]
  else []

/-- The removed-functions loop of `detect_conflicts` (lines 500-508). -/
def removedConflicts (currentF newF : List (String × CodeElement)) : List Conflict :=
  currentF.foldr (fun p acc => removedConflictFor newF p ++ acc) []

/-- Body of the signature-changes loop of `detect_conflicts` (lines
511-522) for one entry of the current-functions dictionary. -/
def signatureConflictFor (newF : List (String × CodeElement)) (p : String × CodeElement) :
    List Conflict :=
  match dictLookup newF p.1 with
  | some newFunc =>
      if ¬ (p.2.parameters = newFunc.parameters) then
        [{ type := "signature_change", severity := "warning",
           message := "Function \"" ++ p.1 ++ "\" signature changed", element := some p.1 }]
      else []
  | none => []

/-- The signature-changes loop of `detect_conflicts` (lines 510-522). -/
def signatureConflicts (currentF newF : List (String × CodeElement)) : List Conflict :=
  currentF.foldr (fun p acc => signatureConflictFor newF p ++ acc) []

/-- `CodeAnalyzer.detect_conflicts` (lines 481-536).  The whole body runs
under `try`: the analysis of the current file and of the proposed content
(written to a temp file and re-read) involves external I/O, so its outcome
is the `Except` input — `.ok` carries the two element lists, `.error` the
exception message.  On success the two loops run; on failure the single
`analysis_error` conflict is returned and no exception ever escapes (the
embedding is a total function). -/
def detectConflicts (step : Except String (List CodeElement × List CodeElement)) :
    List Conflict :=
  match step with
  | .ok (currentElements, newElements) =>
      let currentFunctions := funcDict currentElements
      let newFunctions := funcDict newElements
      removedConflicts currentFunctions newFunctions
        ++ signatureConflicts currentFunctions newFunctions
  | .error e =>
      [{ type := "analysis_error", severity := "error",
         message := "Could not analyze conflicts: " ++ e, element := none }]

/-! Concrete inputs used by the claim theorems, witnesses and
counterexamples. -/

/-- The content of spec property 8. -/
def c8Content : String := "def a():\n    pass\n\ndef b():\n    if True:\n        pass\n"

/-- The CPython parse tree of `c8Content`: two module-level function
definitions; `a` spans lines 1-2 with body `pass`, `b` spans lines 4-6
with body `if True: pass`. -/
def c8Tree : PyBlock :=
  .cons (.functionDef "a" [] none 1 (some 2) (.cons .simpleStmt .nil))
    (.cons (.functionDef "b" [] none 4 (some 6)
        (.cons (.ifStmt (.cons .simpleStmt .nil) .nil) .nil)) .nil)

/-- A syntactically invalid Python content (`ast.parse` raises
`SyntaxError` on it); its first line matches the def/class issue pattern. -/
def invalidContent : String := "def f(:\n    pass\n"

/-- A function element named `g`, as the grammar-aware extractor would
produce for `def g(): pass`. -/
def gElement : CodeElement :=
  { name := "g", type := "function", line_start := 1, line_end := 1,
    parameters := some [], complexity := 1 }

/-- A function element `h(a, b)`. -/
def habElement : CodeElement :=
  { name := "h", type := "function", line_start := 1, line_end := 1,
    parameters := some ["a", "b"], complexity := 1 }

/-- A function element `h(a, b, c)`. -/
def habcElement : CodeElement :=
  { name := "h", type := "function", line_start := 1, line_end := 1,
    parameters := some ["a", "b", "c"], complexity := 1 }

/-- Spine induction for statement blocks (no statement motive needed). -/
def spineInd (motive : PyBlock → Prop) (hnil : motive .nil)
    (hcons : ∀ s r, motive r → motive (.cons s r)) : (b : PyBlock) → motive b
  | .nil => hnil
  | .cons s r => hcons s r (spineInd motive hnil hcons r)

/-- The number of conditional, loop and exception-handler nodes in the
subtree rooted at a node (the node itself included). -/
def branchNodes (node : PyStmt) : Nat := sumTree (fun s => if isBranch s then 1 else 0) node

/-! Lemma layer: structural facts about the walk, the extraction fold and
the dictionary operations. -/

theorem sumBlock_append (w : PyStmt → Nat) (a b : PyBlock) :
    sumBlock w (a.append b) = sumBlock w a + sumBlock w b := by
  induction a using spineInd with
  | hnil => simp [PyBlock.append, sumBlock]
  | hcons s r ih => simp [PyBlock.append, sumBlock, ih]; omega

/-- A subtree weight sum splits into the root weight plus the sums over
the child subtrees. -/
theorem sumTree_children (w : PyStmt → Nat) (s : PyStmt) :
    sumTree w s = w s + sumBlock w (children s) := by
  cases s <;> simp [sumTree, children, sumBlock, sumBlock_append] <;> omega

theorem one_le_sumTree_one (s : PyStmt) : 1 ≤ sumTree (fun _ => 1) s := by
  rw [sumTree_children]; omega

/-- With enough fuel (one unit per node), counting matches along the
breadth-first walk equals the structural subtree count. -/
theorem walkAux_countP (p : PyStmt → Bool) :
    ∀ (fuel : Nat) (b : PyBlock), nodeCountB b ≤ fuel →
      (walkAux fuel b).countP p = sumBlock (fun s => if p s then 1 else 0) b := by
  intro fuel
  induction fuel with
  | zero =>
      intro b hb
      cases b with
      | nil => simp [walkAux, sumBlock]
      | cons s r =>
          exfalso
          have h1 := one_le_sumTree_one s
          simp [nodeCountB, sumBlock] at hb
          omega
  | succ fuel ih =>
      intro b hb
      cases b with
      | nil => simp [walkAux, sumBlock]
      | cons s r =>
          have hcount : nodeCountB (r.append (children s)) ≤ fuel := by
            have h1 : sumTree (fun _ => 1) s = 1 + sumBlock (fun _ => 1) (children s) :=
              sumTree_children _ s
            simp [nodeCountB, sumBlock, sumBlock_append] at hb ⊢
            omega
          rw [walkAux, List.countP_cons, ih _ hcount, sumBlock_append]
          have h2 : sumTree (fun t => if p t then 1 else 0) s =
              (if p s then 1 else 0) + sumBlock (fun t => if p t then 1 else 0) (children s) :=
            sumTree_children _ s
          simp [sumBlock]
          omega

/-- The walked complexity is one plus the structural branch-node count. -/
theorem calculateFunctionComplexity_eq (node : PyStmt) :
    calculateFunctionComplexity node = 1 + branchNodes node := by
  unfold calculateFunctionComplexity walkFrom
  rw [walkAux_countP isBranch _ _ (Nat.le_refl _)]
  simp [sumBlock, branchNodes]

theorem foldl_extractStep_elements (l : List PyStmt) (acc : ExtractResult) :
    (l.foldl extractStep acc).elements = acc.elements ++ l.filterMap elementOf := by
  induction l generalizing acc with
  | nil => simp
  | cons s t ih =>
      rw [List.foldl_cons, ih, List.filterMap_cons]
      cases h : elementOf s <;> simp [extractStep, h]

theorem mem_foldr_append {α β : Type} (f : α → List β) (l : List α) (c : β) :
    c ∈ l.foldr (fun x acc => f x ++ acc) [] ↔ ∃ x ∈ l, c ∈ f x := by
  induction l with
  | nil => simp
  | cons x t ih => simp [ih]

theorem dictLookup_some_mem {α : Type} (d : List (String × α)) (k : String) (v : α)
    (h : dictLookup d k = some v) : (k, v) ∈ d := by
  induction d with
  | nil => simp [dictLookup] at h
  | cons p rest ih =>
      by_cases hk : p.1 = k
      · simp [dictLookup, hk] at h
        subst hk h
        simp
      · simp [dictLookup, hk] at h
        simp [ih h]

theorem dictLookup_append_none {α : Type} (d1 d2 : List (String × α)) (k : String)
    (h : dictLookup d1 k = none) : dictLookup (d1 ++ d2) k = dictLookup d2 k := by
  induction d1 with
  | nil => simp
  | cons p rest ih =>
      by_cases hk : p.1 = k
      · simp [dictLookup, hk] at h
      · simp [dictLookup, hk] at h ⊢
        exact ih h

theorem dictLookup_append_some {α : Type} (d1 d2 : List (String × α)) (k : String) (v : α)
    (h : dictLookup d1 k = some v) : dictLookup (d1 ++ d2) k = some v := by
  induction d1 with
  | nil => simp [dictLookup] at h
  | cons p rest ih =>
      by_cases hk : p.1 = k
      · simp [dictLookup, hk] at h ⊢
        exact h
      · simp [dictLookup, hk] at h ⊢
        exact ih h

/-- Replacing the value stored under `k` in place changes no other key. -/
theorem dictLookup_replace {α : Type} (d : List (String × α)) (k n : String) (v : α) :
    dictLookup (d.map fun p => if p.1 = k then (k, v) else p) n =
      if n = k then (if (dictLookup d k).isSome then some v else none)
      else dictLookup d n := by
  induction d with
  | nil => simp [dictLookup]
  | cons p rest ih =>
      by_cases hpk : p.1 = k
      · by_cases hnk : n = k
        · subst hnk
          simp [dictLookup, hpk, ih]
        · have hkn : ¬ k = n := fun hh => hnk hh.symm
          simp [dictLookup, hpk, hnk, hkn, ih]
      · by_cases hpn : p.1 = n
        · subst hpn
          simp [dictLookup, hpk]
        · simp [dictLookup, hpk, hpn, ih]


theorem dictLookup_upsert (d : List (String × CodeElement)) (k n : String) (v : CodeElement) :
    dictLookup (dictUpsert d k v) n = if n = k then some v else dictLookup d n := by
  unfold dictUpsert
  cases h : dictLookup d k with
  | some w =>
      have hs : (dictLookup d k).isSome = true := by simp [h]
      simp [hs, dictLookup_replace, h]
  | none =>
      rw [if_neg (by simp)]
      by_cases hn : n = k
      · subst hn
        rw [dictLookup_append_none _ _ _ h]
        simp [dictLookup]
      · have hkn : ¬ k = n := fun hh => hn hh.symm
        cases hd : dictLookup d n with
        | some w => simp [hn, dictLookup_append_some _ _ _ _ hd, hd]
        | none =>
            rw [dictLookup_append_none _ _ _ hd]
            simp [hn, dictLookup, hkn, hd]

theorem dictLookup_eq_none_iff {α : Type} (d : List (String × α)) (k : String) :
    dictLookup d k = none ↔ k ∉ d.map Prod.fst := by
  induction d with
  | nil => simp [dictLookup]
  | cons p rest ih =>
      by_cases hk : p.1 = k
      · simp [dictLookup, hk]
      · have hkp : ¬ k = p.1 := fun hh => hk hh.symm
        simp [dictLookup, hk, ih, hkp]

theorem keys_dictUpsert (d : List (String × CodeElement)) (k : String) (v : CodeElement)
    (hnd : (d.map Prod.fst).Nodup) : ((dictUpsert d k v).map Prod.fst).Nodup := by
  unfold dictUpsert
  cases h : dictLookup d k with
  | some w =>
      rw [if_pos (by simp), List.map_map]
      have : d.map (Prod.fst ∘ fun p => if p.1 = k then (k, v) else p) = d.map Prod.fst := by
        apply List.map_congr_left
        intro p _
        by_cases hp : p.1 = k <;> simp [hp]
      rw [this]
      exact hnd
  | none =>
      have hmem : k ∉ d.map Prod.fst := (dictLookup_eq_none_iff d k).mp h
      rw [if_neg (by simp), List.map_append]
      simp [List.nodup_append, hnd, hmem]

theorem foldl_funcStep_keys_nodup (es : List CodeElement) :
    ∀ d : List (String × CodeElement), (d.map Prod.fst).Nodup →
      ((es.foldl funcStep d).map Prod.fst).Nodup := by
  induction es with
  | nil => intro d hd; simpa using hd
  | cons e t ih =>
      intro d hd
      rw [List.foldl_cons]
      apply ih
      unfold funcStep
      by_cases he : e.type == "function"
      · simp only [he, if_true]
        exact keys_dictUpsert _ _ _ hd
      · simp only [he, if_false]
        exact hd

theorem funcDict_keys_nodup (es : List CodeElement) : ((funcDict es).map Prod.fst).Nodup :=
  foldl_funcStep_keys_nodup es [] (by simp)

theorem foldl_funcStep_lookup (es : List CodeElement) :
    ∀ (d : List (String × CodeElement)) (n : String),
      (dictLookup (es.foldl funcStep d) n).isSome ↔
        (dictLookup d n).isSome ∨ ∃ e ∈ es, e.type = "function" ∧ e.name = n := by
  induction es with
  | nil => simp
  | cons e t ih =>
      intro d n
      rw [List.foldl_cons, ih]
      unfold funcStep
      by_cases he : e.type = "function"
      · have heb : (e.type == "function") = true := by simp [he]
        rw [heb]
        simp only [if_true, dictLookup_upsert]
        by_cases hn : n = e.name
        · simp [hn, he]
        · have hne : ¬ e.name = n := fun hh => hn hh.symm
          simp [hn, he, hne]
      · have heb : ¬ (e.type == "function") = true := by simp [he]
        simp only [heb, if_false]
        simp [he]

theorem funcDict_lookup_isSome (es : List CodeElement) (n : String) :
    (dictLookup (funcDict es) n).isSome ↔ ∃ e ∈ es, e.type = "function" ∧ e.name = n := by
  rw [funcDict, foldl_funcStep_lookup]
  simp [dictLookup]

theorem foldr_filter_key (f : String × CodeElement → List Conflict) (g : String)
    (hf : ∀ p c, c ∈ f p → c.element = some p.1) :
    ∀ cF : List (String × CodeElement), (cF.map Prod.fst).Nodup →
      (cF.foldr (fun p acc => f p ++ acc) []).filter (fun c => decide (c.element = some g)) =
        (match dictLookup cF g with
         | some v => f (g, v)
         | none => []) := by
  intro cF
  induction cF with
  | nil => intro _; simp [dictLookup]
  | cons p rest ih =>
      intro hnd
      rw [List.map_cons, List.nodup_cons] at hnd
      have hnd1 : p.1 ∉ rest.map Prod.fst := hnd.1
      have hnd2 : (rest.map Prod.fst).Nodup := hnd.2
      rw [List.foldr_cons, List.filter_append, ih hnd2]
      by_cases hpg : p.1 = g
      · have h1 : (f p).filter (fun c => decide (c.element = some g)) = f p := by
          apply List.filter_eq_self.mpr
          intro c hc
          simp [hf p c hc, hpg]
        have h2 : dictLookup rest g = none := by
          rw [dictLookup_eq_none_iff]
          rw [hpg] at hnd1
          exact hnd1
        rw [h1, h2]
        simp only [dictLookup, hpg, if_true]
        have hp : (g, p.2) = p := by rw [← hpg]
        simp [hp]
      · have h1 : (f p).filter (fun c => decide (c.element = some g)) = [] := by
          apply List.filter_eq_nil_iff.mpr
          intro c hc
          simp [hf p c hc, hpg]
        rw [h1]
        simp [dictLookup, hpg]

theorem detectConflicts_filter_element (cur new : List CodeElement) (g : String) :
    (detectConflicts (.ok (cur, new))).filter (fun c => decide (c.element = some g)) =
      (match dictLookup (funcDict cur) g, dictLookup (funcDict new) g with
       | some _, none =>
           [{ type := "removed_function", severity := "error",
              message := "Function \"" ++ g ++ "\" was removed", element := some g }]
       | some v, some w =>
           if v.parameters = w.parameters then []
           else
             [{ type := "signature_change", severity := "warning",
                message := "Function \"" ++ g ++ "\" signature changed", element := some g }]
       | none, _ => []) := by
  have hfr : ∀ p c, c ∈ removedConflictFor (funcDict new) p → c.element = some p.1 := by
    intro p c hc
    unfold removedConflictFor at hc
    split at hc
    · simp at hc
      subst hc
      rfl
    · simp at hc
  have hfs : ∀ p c, c ∈ signatureConflictFor (funcDict new) p → c.element = some p.1 := by
    intro p c hc
    unfold signatureConflictFor at hc
    split at hc
    · split at hc
      · simp at hc
        subst hc
        rfl
      · simp at hc
    · simp at hc
  simp only [detectConflicts, removedConflicts, signatureConflicts]
  rw [List.filter_append,
      foldr_filter_key _ g hfr _ (funcDict_keys_nodup cur),
      foldr_filter_key _ g hfs _ (funcDict_keys_nodup cur)]
  cases hc : dictLookup (funcDict cur) g with
  | none => simp
  | some v =>
      cases hn : dictLookup (funcDict new) g with
      | none => simp [removedConflictFor, signatureConflictFor, hn]
      | some w =>
          by_cases hp : v.parameters = w.parameters
          · simp [removedConflictFor, signatureConflictFor, hn, hp]
          · simp [removedConflictFor, signatureConflictFor, hn, hp]


theorem cacheLookup_insert_self (cache : Cache) (k : String) (v : FileAnalysis × Nat) :
    cacheLookup (cacheInsert cache k v) k = some v := by
  unfold cacheLookup cacheInsert
  cases h : dictLookup cache k with
  | some w =>
      rw [if_pos (by simp [h]), dictLookup_replace]
      simp [h]
  | none =>
      rw [if_neg (by simp [h]), dictLookup_append_none _ _ _ h]
      simp [dictLookup]

theorem generalLineIssues_severity (i : Nat) (line : List Char) (c : Issue)
    (hc : c ∈ generalLineIssues i line) :
    c.severity = some "warning" ∨ c.severity = some "info" := by
  unfold generalLineIssues at hc
  rw [List.mem_append] at hc
  rcases hc with hc | hc <;> split at hc <;> simp at hc <;> subst hc <;> simp

theorem detectPythonIssues_severity (lines : List (List Char)) (c : Issue)
    (hc : c ∈ detectPythonIssues lines) : c.severity = some "warning" := by
  unfold detectPythonIssues at hc
  obtain ⟨p, _, hcp⟩ := (mem_foldr_append _ _ _).mp hc
  split at hcp <;> simp at hcp
  subst hcp
  rfl

theorem detectJsIssues_severity (lines : List (List Char)) (c : Issue)
    (hc : c ∈ detectJsIssues lines) : c.severity = some "info" := by
  unfold detectJsIssues at hc
  obtain ⟨p, _, hcp⟩ := (mem_foldr_append _ _ _).mp hc
  split at hcp <;> simp at hcp
  subst hcp
  rfl

/-- None of the issue detectors ever emits an error-severity issue: the
possible severities are `warning` and `info`. -/
theorem detectIssues_severity (content language : String) (c : Issue)
    (hc : c ∈ detectIssues content language) :
    c.severity = some "warning" ∨ c.severity = some "info" := by
  unfold detectIssues at hc
  rw [List.mem_append] at hc
  rcases hc with hc | hc
  · unfold detectGeneralIssues at hc
    obtain ⟨p, _, hcp⟩ := (mem_foldr_append _ _ _).mp hc
    exact generalLineIssues_severity _ _ _ hcp
  · split at hc
    · exact Or.inl (detectPythonIssues_severity _ _ hc)
    · split at hc
      · exact Or.inr (detectJsIssues_severity _ _ hc)
      · simp at hc

theorem elementOf_spec (node : PyStmt) (e : CodeElement) (h : elementOf node = some e) :
    (e.type = "function" ∧ 1 ≤ e.complexity) ∨ (e.type = "class" ∧ e.complexity = 0) := by
  cases node with
  | functionDef nm ps ds l el bd =>
      simp only [elementOf, Option.some.injEq] at h
      subst h
      refine Or.inl ⟨rfl, ?_⟩
      show 1 ≤ calculateFunctionComplexity (.functionDef nm ps ds l el bd)
      rw [calculateFunctionComplexity_eq]
      omega
  | classDef nm ds l el bd =>
      simp only [elementOf, Option.some.injEq] at h
      subst h
      exact Or.inr ⟨rfl, rfl⟩
  | ifStmt b o => simp [elementOf] at h
  | forStmt b o => simp [elementOf] at h
  | whileStmt b o => simp [elementOf] at h
  | tryStmt b hs o f => simp [elementOf] at h
  | exceptHandler b => simp [elementOf] at h
  | importStmt ns => simp [elementOf] at h
  | importFrom m => simp [elementOf] at h
  | simpleStmt => simp [elementOf] at h

theorem one_le_lineNumAt (content : List Char) (k : Nat) : 1 ≤ lineNumAt content k := by
  unfold lineNumAt
  omega

/-- Every element the JavaScript pattern path produces keeps the default
complexity 0 and records the single-line span computed from the newline
count before its match offset. -/
theorem analyzeJavascript_element_spec (content : String) (fm : List JsFuncMatch)
    (cm : List NamedMatch) (im : List String) (e : CodeElement)
    (he : e ∈ (analyzeJavascript content fm cm im).elements) :
    e.complexity = 0 ∧ e.line_end = e.line_start ∧
      ∃ k, e.line_start = lineNumAt content.toList k := by
  simp only [analyzeJavascript] at he
  rw [List.mem_append] at he
  rcases he with he | he
  · obtain ⟨m, _, hcm⟩ := (mem_foldr_append _ _ _).mp he
    cases hm : pyOrOpt m.group1 m.group2 with
    | none => rw [hm] at hcm; simp at hcm
    | some n =>
        rw [hm] at hcm
        simp at hcm
        obtain ⟨-, hcm⟩ := hcm
        subst hcm
        exact ⟨rfl, rfl, m.start, rfl⟩
  · obtain ⟨m, _, hme⟩ := List.mem_map.mp he
    subst hme
    exact ⟨rfl, rfl, m.start, rfl⟩

/-- Same fact for the generic pattern path. -/
theorem analyzeGeneric_element_spec (content : String) (fm : List GroupsMatch)
    (cm : List NamedMatch) (e : CodeElement)
    (he : e ∈ (analyzeGeneric content fm cm).elements) :
    e.complexity = 0 ∧ e.line_end = e.line_start ∧
      ∃ k, e.line_start = lineNumAt content.toList k := by
  simp only [analyzeGeneric] at he
  rw [List.mem_append] at he
  rcases he with he | he
  · obtain ⟨m, _, hcm⟩ := (mem_foldr_append _ _ _).mp he
    cases hm : firstTruthyGroup m.groups with
    | none => rw [hm] at hcm; simp at hcm
    | some n =>
        rw [hm] at hcm
        simp at hcm
        obtain ⟨-, hcm⟩ := hcm
        subst hcm
        exact ⟨rfl, rfl, m.start, rfl⟩
  · obtain ⟨m, _, hme⟩ := List.mem_map.mp he
    subst hme
    exact ⟨rfl, rfl, m.start, rfl⟩


/-! Claim theorems. -/

/-- Claim C1: if `Analyze(p, c1, false)` was computed and cached, a call
`Analyze(p, c2, false)` made before the 300-second TTL has elapsed
returns the cached `FileAnalysis` computed for `c1` — for every `c2` and
every extraction result for `c2` — and leaves the cache untouched (no
recomputation, no store): staleness is time-bounded, not content-bounded,
and the cached entry's hash is never compared against `c2`. -/
theorem analyzeFile_cache_hit_within_ttl
    (cache : Cache) (now now2 : Nat) (p sfx c1 c2 : String) (e1 e2 : ExtractResult)
    (hmiss : cacheLookup cache p = none) (httl : now2 - now < 300) :
    analyzeFile (analyzeFile cache now p sfx c1 e1 false).2 now2 p sfx c2 e2 false
        = analyzeFile cache now p sfx c1 e1 false
      ∧ (analyzeFile cache now p sfx c1 e1 false).1 = assembleAnalysis p sfx c1 e1 := by
  have h1 : analyzeFile cache now p sfx c1 e1 false =
      (assembleAnalysis p sfx c1 e1,
       cacheInsert cache p (assembleAnalysis p sfx c1 e1, now)) := by
    simp [analyzeFile, hmiss]
  have h2 := cacheLookup_insert_self cache p (assembleAnalysis p sfx c1 e1, now)
  refine ⟨?_, by rw [h1]⟩
  rw [h1]
  simp [analyzeFile, h2, cacheTtl, httl]

/-- Witness for C1 at a concrete cache, clock and pair of contents. -/
theorem analyzeFile_cache_hit_within_ttl_witness :
    analyzeFile (analyzeFile [] 0 "a.py" ".py" "x = 1\n" ⟨[], [], []⟩ false).2 10
        "a.py" ".py" "y = 2\n" ⟨[], [], []⟩ false
      = analyzeFile [] 0 "a.py" ".py" "x = 1\n" ⟨[], [], []⟩ false :=
  (analyzeFile_cache_hit_within_ttl [] 0 10 "a.py" ".py" "x = 1\n" "y = 2\n"
    ⟨[], [], []⟩ ⟨[], [], []⟩ rfl (by decide)).1

/-- Counterexample to claim C2 as stated: for the syntactically invalid
content `invalidContent` the analysis returns an empty element list, but
the issues hold **zero** error-severity entries, not exactly one — the
parse failure is swallowed (`except SyntaxError: pass`) and never becomes
an Issue. -/
theorem invalid_python_single_error_issue_cex :
    (analyzePyFile "bad.py" invalidContent (.error "invalid syntax")).elements = [] ∧
    ((analyzePyFile "bad.py" invalidContent (.error "invalid syntax")).issues.filter
        (fun i => i.severity == some "error")).length = 0 ∧
    ¬ ((analyzePyFile "bad.py" invalidContent (.error "invalid syntax")).issues.filter
        (fun i => i.severity == some "error")).length = 1 := by decide

/-- Claim C2 (amended): for every syntactically invalid content the
grammar-aware analysis does not raise (the embedding is a total function)
and returns a `FileAnalysis` with an empty element and import list, but no
parse-failure Issue is added: the issues are exactly the generic detector
findings, none of which has error severity.  Even the degraded result of
`analyze_file`'s outer exception handler carries no severity key at all. -/
theorem invalid_python_degrades_silently (path content msg : String) :
    (analyzePyFile path content (.error msg)).elements = [] ∧
    (analyzePyFile path content (.error msg)).imports = [] ∧
    (analyzePyFile path content (.error msg)).issues = detectIssues content "python" ∧
    (∀ i ∈ (analyzePyFile path content (.error msg)).issues, i.severity ≠ some "error") ∧
    (∀ i ∈ (analyzeFileFailure path msg).issues, i.severity ≠ some "error") := by
  refine ⟨rfl, rfl, rfl, ?_, ?_⟩
  · intro i hi
    have hm : i ∈ detectIssues content "python" := hi
    rcases detectIssues_severity content "python" i hm with h | h <;> simp [h]
  · intro i hi
    simp [analyzeFileFailure] at hi
    subst hi
    simp

/-- Witness for the amended C2 at `invalidContent`: the elements come out
empty and the one issue actually produced (the missing-docstring warning)
is not error-severity. -/
theorem invalid_python_degrades_silently_witness :
    (analyzePyFile "w.py" invalidContent (.error "invalid syntax")).elements = [] ∧
    ({ type := "documentation", severity := some "warning", line := some 1,
       message := "Missing docstring" } : Issue).severity ≠ some "error" :=
  ⟨(invalid_python_degrades_silently "w.py" invalidContent "invalid syntax").1,
   (invalid_python_degrades_silently "w.py" invalidContent "invalid syntax").2.2.2.1
     _ (by decide)⟩

/-- Claim C3: when the before-analysis contains a function `g` and the
re-extraction of the proposed content yields no function named `g`,
`detect_conflicts` emits exactly one conflict naming `g` — the
`removed_function` conflict with severity `error` (the source spells the
spec's `removed_element` kind `removed_function`). -/
theorem detect_conflicts_removed_function (cur new : List CodeElement) (g : String)
    (hin : ∃ e ∈ cur, e.type = "function" ∧ e.name = g)
    (hout : ∀ e ∈ new, e.type = "function" → e.name ≠ g) :
    (detectConflicts (.ok (cur, new))).filter (fun c => decide (c.element = some g)) =
      [{ type := "removed_function", severity := "error",
         message := "Function \"" ++ g ++ "\" was removed", element := some g }] := by
  have hsome : (dictLookup (funcDict cur) g).isSome :=
    (funcDict_lookup_isSome cur g).mpr hin
  have hnone : dictLookup (funcDict new) g = none := by
    rw [← Option.not_isSome_iff_eq_none]
    intro hs
    obtain ⟨e, he, ht, hn⟩ := (funcDict_lookup_isSome new g).mp hs
    exact hout e he ht hn
  obtain ⟨v, hv⟩ := Option.isSome_iff_exists.mp hsome
  rw [detectConflicts_filter_element, hv, hnone]

/-- Witness for C3: `g` exists before and is gone after. -/
theorem detect_conflicts_removed_function_witness :
    (detectConflicts (.ok ([gElement], []))).filter (fun c => decide (c.element = some "g")) =
      [{ type := "removed_function", severity := "error",
         message := "Function \"" ++ "g" ++ "\" was removed", element := some "g" }] :=
  detect_conflicts_removed_function [gElement] [] "g" (by decide) (by decide)

/-- Claim C4: for a function name present in both dictionaries, the
conflicts naming it are exactly one `signature_change` of severity
`warning` when the parameter sequences differ, and none at all when they
are equal; in particular no removed-element conflict is ever emitted for
it. -/
theorem detect_conflicts_signature_change (cur new : List CodeElement) (nm : String)
    (e1 e2 : CodeElement)
    (h1 : dictLookup (funcDict cur) nm = some e1)
    (h2 : dictLookup (funcDict new) nm = some e2) :
    (detectConflicts (.ok (cur, new))).filter (fun c => decide (c.element = some nm)) =
      (if e1.parameters = e2.parameters then []
       else
         [{ type := "signature_change", severity := "warning",
            message := "Function \"" ++ nm ++ "\" signature changed", element := some nm }]) := by
  rw [detectConflicts_filter_element, h1, h2]

/-- Witness for C4: `h(a, b)` becomes `h(a, b, c)` — one signature-change
warning and nothing else names `h`. -/
theorem detect_conflicts_signature_change_witness :
    (detectConflicts (.ok ([habElement], [habcElement]))).filter
        (fun c => decide (c.element = some "h")) =
      [{ type := "signature_change", severity := "warning",
         message := "Function \"" ++ "h" ++ "\" signature changed", element := some "h" }] := by
  rw [detect_conflicts_signature_change [habElement] [habcElement] "h" habElement habcElement
      (by decide) (by decide)]
  decide

/-- Claim C5: `detect_conflicts` is a total function (the embedding never
raises), and when the analysis step fails with message `e` the result is
exactly the single `analysis_error` conflict of severity `error` carrying
the failure message. -/
theorem detect_conflicts_error_branch (e : String) :
    detectConflicts (.error e) =
      [{ type := "analysis_error", severity := "error",
         message := "Could not analyze conflicts: " ++ e, element := none }] := rfl

/-- Claim C6: the element-level complexity equals 1 plus the number of
conditional/loop/exception-handler nodes in the subtree rooted at the
function, hence is at least 1; inserting a statement into the function
body adds exactly that statement's branch-node count (so the score never
decreases, and strictly increases for a branching statement); and the
spec's concrete pair scores 1 versus 2. -/
theorem function_complexity_monotone :
    (∀ node : PyStmt, calculateFunctionComplexity node = 1 + branchNodes node) ∧
    (∀ node : PyStmt, 1 ≤ calculateFunctionComplexity node) ∧
    (∀ (n : String) (ps : List String) (d : Option String) (l : Nat) (e : Option Nat)
       (pre post : PyBlock) (s : PyStmt),
       calculateFunctionComplexity (.functionDef n ps d l e (pre.append (.cons s post)))
         = calculateFunctionComplexity (.functionDef n ps d l e (pre.append post))
           + branchNodes s) ∧
    (∀ (n : String) (ps : List String) (d : Option String) (l : Nat) (e : Option Nat)
       (pre post : PyBlock) (s : PyStmt), isBranch s = true →
       calculateFunctionComplexity (.functionDef n ps d l e (pre.append post))
         < calculateFunctionComplexity (.functionDef n ps d l e (pre.append (.cons s post)))) ∧
    (calculateFunctionComplexity
        (.functionDef "f" ["x"] none 1 (some 1) (.cons .simpleStmt .nil)) = 1 ∧
     calculateFunctionComplexity
        (.functionDef "f" ["x"] none 1 (some 2)
          (.cons (.ifStmt (.cons .simpleStmt .nil) .nil) .nil)) = 2) := by
  have key : ∀ (n : String) (ps : List String) (d : Option String) (l : Nat) (e : Option Nat)
      (pre post : PyBlock) (s : PyStmt),
      calculateFunctionComplexity (.functionDef n ps d l e (pre.append (.cons s post)))
        = calculateFunctionComplexity (.functionDef n ps d l e (pre.append post))
          + branchNodes s := by
    intro n ps d l e pre post s
    rw [calculateFunctionComplexity_eq, calculateFunctionComplexity_eq]
    simp [branchNodes, sumTree, isBranch, sumBlock_append, sumBlock]
    omega
  refine ⟨calculateFunctionComplexity_eq, ?_, key, ?_, by decide⟩
  · intro node
    rw [calculateFunctionComplexity_eq]
    omega
  · intro n ps d l e pre post s hs
    have hb : 1 ≤ branchNodes s := by
      unfold branchNodes
      rw [sumTree_children, hs]
      simp
    rw [key]
    omega

/-- Witness for C6: inserting one `if` strictly raises the score. -/
theorem function_complexity_monotone_witness :
    calculateFunctionComplexity (.functionDef "g" [] none 1 (some 1)
        (PyBlock.append .nil .nil))
      < calculateFunctionComplexity (.functionDef "g" [] none 1 (some 1)
        (PyBlock.append .nil (.cons (.ifStmt .nil .nil) .nil))) :=
  function_complexity_monotone.2.2.2.1 "g" [] none 1 (some 1) .nil .nil
    (.ifStmt .nil .nil) rfl

/-- Counterexample to claim C7 as stated: a class element produced by the
grammar-aware path keeps the dataclass default `complexity = 0`, so not
every extracted `CodeElement` has complexity at least 1. -/
theorem element_complexity_ge_one_cex :
    (analyzePython (.ok (.cons (.classDef "C" none 1 (some 2) .nil) .nil))).elements.map
        (fun e => e.complexity) = [0] ∧
    ¬ (∀ e ∈ (analyzePython (.ok (.cons (.classDef "C" none 1 (some 2) .nil) .nil))).elements,
        1 ≤ e.complexity) := by decide

/-- Claim C7 (amended): only function elements of the grammar-aware path
get a computed complexity, which is at least 1; class elements of that
path and every element of the pattern-based paths keep the dataclass
default `complexity = 0` (not 1). -/
theorem element_complexity_amended :
    (∀ (parsed : Except String PyBlock), ∀ e ∈ (analyzePython parsed).elements,
       (e.type = "function" → 1 ≤ e.complexity) ∧ (e.type = "class" → e.complexity = 0)) ∧
    (∀ (content : String) (fm : List JsFuncMatch) (cm : List NamedMatch) (im : List String),
       ∀ e ∈ (analyzeJavascript content fm cm im).elements, e.complexity = 0) ∧
    (∀ (content : String) (fm : List GroupsMatch) (cm : List NamedMatch),
       ∀ e ∈ (analyzeGeneric content fm cm).elements, e.complexity = 0) := by
  refine ⟨?_, ?_, ?_⟩
  · intro parsed e he
    cases parsed with
    | error msg => simp [analyzePython] at he
    | ok body =>
        simp only [analyzePython] at he
        rw [foldl_extractStep_elements] at he
        simp only [List.nil_append] at he
        obtain ⟨node, _, hne⟩ := List.mem_filterMap.mp he
        rcases elementOf_spec node e hne with ⟨ht, hc⟩ | ⟨ht, hc⟩
        · exact ⟨fun _ => hc, fun hcl => absurd (ht.symm.trans hcl) (by decide)⟩
        · exact ⟨fun hf => absurd (ht.symm.trans hf) (by decide), fun _ => hc⟩
  · intro content fm cm im e he
    exact (analyzeJavascript_element_spec content fm cm im e he).1
  · intro content fm cm e he
    exact (analyzeGeneric_element_spec content fm cm e he).1

/-- Witness for the amended C7: a concrete function element scores 1, a
concrete JavaScript match yields complexity 0. -/
theorem element_complexity_amended_witness :
    ((gElement.type = "function" → 1 ≤ gElement.complexity) ∧
      (gElement.type = "class" → gElement.complexity = 0)) ∧
    ({ name := "f", type := "function", line_start := 1, line_end := 1,
       docstring := none, parameters := none, return_type := none,
       complexity := 0, dependencies := none } : CodeElement).complexity = 0 :=
  ⟨element_complexity_amended.1
      (.ok (.cons (.functionDef "g" [] none 1 (some 1) .nil) .nil)) gElement (by decide),
   element_complexity_amended.2.1 "function f()" [⟨0, some "f", none⟩] [] [] _ (by decide)⟩

set_option maxRecDepth 10000 in
/-- Claim C8: analyzing the spec's two-function content as Python yields
exactly function `a` (complexity 1, lines 1-2) and function `b`
(complexity 2, lines 4-6), a file-level complexity score of at least 2,
and 5 lines of code. -/
theorem end_to_end_two_functions :
    (analyzePyFile "example.py" c8Content (.ok c8Tree)).elements =
      [{ name := "a", type := "function", line_start := 1, line_end := 2, docstring := none,
         parameters := some [], return_type := none, complexity := 1, dependencies := none },
       { name := "b", type := "function", line_start := 4, line_end := 6, docstring := none,
         parameters := some [], return_type := none, complexity := 2, dependencies := none }] ∧
    2 ≤ (analyzePyFile "example.py" c8Content (.ok c8Tree)).complexity_score ∧
    (analyzePyFile "example.py" c8Content (.ok c8Tree)).lines_of_code = 5 := by decide

/-- Counterexample to claim C9 as stated: the classifier that returns
`"unknown"` (the analyzer's `_detect_language`) draws from a table of only
14 entries, not at least 30; the detector table that does have more than
30 entries backs `detect_from_extension`, which returns `None` — not
`"unknown"` — on the unrecognized concrete file name `"foo.xyz"`. -/
theorem language_classifier_table_cex :
    languageMap.length = 14 ∧ ¬ (30 ≤ languageMap.length) ∧
    file_extensions.length = 78 ∧ detect_from_extension "foo.xyz" = none := by decide

/-- Claim C9 (amended): `_detect_language` is a pure total function over
its fixed 14-entry table, returning a tag from the table and `"unknown"`
exactly on a lowercased-extension miss; the separate
`LanguageDetector.detect_from_extension` uses the 78-entry table but
returns `None` rather than `"unknown"` on a miss. -/
theorem language_classifier_amended :
    languageMap.length = 14 ∧
    (∀ ext : String, detectLanguage ext = "unknown" ∨
       (asciiLower ext, detectLanguage ext) ∈ languageMap) ∧
    (∀ ext : String, dictLookup languageMap (asciiLower ext) = none →
       detectLanguage ext = "unknown") ∧
    file_extensions.length = 78 ∧
    (∀ p : String, dictLookup file_extensions (asciiLower (pathSuffix p)) = none →
       detect_from_extension p = none) := by
  refine ⟨by decide, ?_, ?_, by decide, ?_⟩
  · intro ext
    unfold detectLanguage
    cases h : dictLookup languageMap (asciiLower ext) with
    | none => simp
    | some v =>
        right
        simp only [Option.getD_some]
        exact dictLookup_some_mem _ _ _ h
  · intro ext h
    unfold detectLanguage
    rw [h]
    rfl
  · intro p h
    unfold detect_from_extension
    exact h

/-- Witness for the amended C9 at concrete inputs. -/
theorem language_classifier_amended_witness :
    detectLanguage ".xyz" = "unknown" ∧ detect_from_extension "foo.bar" = none :=
  ⟨language_classifier_amended.2.2.1 ".xyz" (by decide),
   language_classifier_amended.2.2.2.2 "foo.bar" (by decide)⟩

/-- Claim C10: every element the pattern-based extraction paths produce
records a single-line span (`line_start = line_end`), with
`line_start = 1 + (newlines before the match offset) ≥ 1`. -/
theorem pattern_path_single_line_span :
    (∀ (content : String) (fm : List JsFuncMatch) (cm : List NamedMatch) (im : List String),
       ∀ e ∈ (analyzeJavascript content fm cm im).elements,
         e.line_end = e.line_start ∧ 1 ≤ e.line_start ∧
         ∃ k, e.line_start = lineNumAt content.toList k) ∧
    (∀ (content : String) (fm : List GroupsMatch) (cm : List NamedMatch),
       ∀ e ∈ (analyzeGeneric content fm cm).elements,
         e.line_end = e.line_start ∧ 1 ≤ e.line_start ∧
         ∃ k, e.line_start = lineNumAt content.toList k) := by
  constructor
  · intro content fm cm im e he
    obtain ⟨hc, hl, k, hk⟩ := analyzeJavascript_element_spec content fm cm im e he
    exact ⟨hl, hk ▸ one_le_lineNumAt content.toList k, k, hk⟩
  · intro content fm cm e he
    obtain ⟨hc, hl, k, hk⟩ := analyzeGeneric_element_spec content fm cm e he
    exact ⟨hl, hk ▸ one_le_lineNumAt content.toList k, k, hk⟩

/-- Witness for C10: a concrete match at offset 7 of a two-line content
lands on line 2 with a single-line span. -/
theorem pattern_path_single_line_span_witness :
    ({ name := "f", type := "function", line_start := 2, line_end := 2,
       docstring := none, parameters := none, return_type := none,
       complexity := 0, dependencies := none } : CodeElement).line_end = 2 ∧
    (2 : Nat) = lineNumAt ("// top\nfunction f()").toList 7 := by
  have h := pattern_path_single_line_span.1 "// top\nfunction f()"
    [⟨7, some "f", none⟩] [] []
    { name := "f", type := "function", line_start := 2, line_end := 2,
      docstring := none, parameters := none, return_type := none,
      complexity := 0, dependencies := none } (by decide)
  exact ⟨h.1.trans (by decide), by decide⟩

end DeepCode
